import Mathlib

/-!
Verification of the lexer of the djinnius IDL front-end.

The definitions below are a shallow embedding of `src/token.rs`:
`Loc`, `Token`, `TokenizeError` and `tokenize` mirror the Rust items of
the same names.  The Rust `while let` loop of `tokenize` is embedded as
a one-iteration step function `step` (the body of the loop) driven by
the recursive `tokenizeLoop`; the accumulator list of tokens is kept in
reverse order so that the Rust `tokens.last_mut()` access is the head
of the accumulator, and it is reversed once at the end.

Character classification: Rust's `char::is_alphabetic` and
`char::is_alphanumeric` are full Unicode properties; they are modelled
here by `Char.isAlpha` / `Char.isAlphanum` (their ASCII restriction).
Every concrete scenario of the specification is ASCII, and no theorem
below depends on which characters the word classes contain.
Rust's `String::len` is a byte count, which agrees with the character
count used here on ASCII text.
-/

namespace Djinnius

/-- Tab width used by the location tracker (`TAB_SIZE` in src/token.rs). -/
def TAB_SIZE : Nat := 4

/-- Source location, zero-based line and column (`Loc` in src/token.rs);
`Loc::default()` is `(0, 0)`. -/
structure Loc where
  line : Nat
  column : Nat
deriving DecidableEq, Repr

/-- Lexical tokens (`Token` in src/token.rs). -/
inductive Token where
  | Identifier : String → Loc → Token
  | Comment : String → Loc → Token
  | Equal : Loc → Token
  | Colon : Loc → Token
  | Semicolon : Loc → Token
  | OpenParen : Loc → Token
  | CloseParen : Loc → Token
  | OpenBrace : Loc → Token
  | CloseBrace : Loc → Token
  | OpenAngleBracket : Loc → Token
  | CloseAngleBracket : Loc → Token
  | DirectiveExtern : Loc → Token
  | DirectiveImport : Loc → Token
  | LangCpp : Loc → Token
  | LangJava : Loc → Token
  | LangObjC : Loc → Token
  | KeywordEnum : Loc → Token
  | KeywordRecord : Loc → Token
  | KeywordInterface : Loc → Token
  | KeywordStatic : Loc → Token
  | KeywordDeriving : Loc → Token
  | KeywordBool : Loc → Token
  | KeywordI8 : Loc → Token
  | KeywordI16 : Loc → Token
  | KeywordI32 : Loc → Token
  | KeywordI64 : Loc → Token
  | KeywordF32 : Loc → Token
  | KeywordF64 : Loc → Token
  | KeywordString : Loc → Token
  | KeywordBinary : Loc → Token
  | KeywordDate : Loc → Token
  | KeywordList : Loc → Token
  | KeywordSet : Loc → Token
  | KeywordMap : Loc → Token
  | KeywordOptional : Loc → Token
deriving DecidableEq, Repr

/-- Lexical errors (`TokenizeError` in src/token.rs); the source enum has
exactly these three variants, each carrying a `Loc`. -/
inductive TokenizeError where
  | InvalidChar : Loc → TokenizeError
  | UnknownDirective : Loc → TokenizeError
  | UnknownLanguage : Loc → TokenizeError
deriving DecidableEq, Repr

/-- The location carried by a token. -/
def Token.loc : Token → Loc
  | .Identifier _ l => l
  | .Comment _ l => l
  | .Equal l => l
  | .Colon l => l
  | .Semicolon l => l
  | .OpenParen l => l
  | .CloseParen l => l
  | .OpenBrace l => l
  | .CloseBrace l => l
  | .OpenAngleBracket l => l
  | .CloseAngleBracket l => l
  | .DirectiveExtern l => l
  | .DirectiveImport l => l
  | .LangCpp l => l
  | .LangJava l => l
  | .LangObjC l => l
  | .KeywordEnum l => l
  | .KeywordRecord l => l
  | .KeywordInterface l => l
  | .KeywordStatic l => l
  | .KeywordDeriving l => l
  | .KeywordBool l => l
  | .KeywordI8 l => l
  | .KeywordI16 l => l
  | .KeywordI32 l => l
  | .KeywordI64 l => l
  | .KeywordF32 l => l
  | .KeywordF64 l => l
  | .KeywordString l => l
  | .KeywordBinary l => l
  | .KeywordDate l => l
  | .KeywordList l => l
  | .KeywordSet l => l
  | .KeywordMap l => l
  | .KeywordOptional l => l

/-- Whether a token is a comment token. -/
def Token.isComment : Token → Bool
  | .Comment _ _ => true
  | _ => false

/-- Word-start class of the Rust word arm: `c.is_alphabetic() || c == '_'`. -/
def isWordStart (c : Char) : Bool := c.isAlpha || c = '_'

/-- Word-continuation class: `c.is_alphanumeric() || c == '_'`. -/
def isWordChar (c : Char) : Bool := c.isAlphanum || c = '_'

/-- Character class of the word read after `@`: `c.is_alphabetic() || c == '_'`. -/
def isDirectiveChar (c : Char) : Bool := c.isAlpha || c = '_'

/-- Keyword table of the word arm of `tokenize` (src/token.rs lines 199-220):
a scanned word is matched against the 19 keyword spellings, any other word
becomes an `Identifier`. -/
def keywordToken (word : String) (loc : Loc) : Token :=
  match word with
  | "enum" => Token.KeywordEnum loc
  | "record" => Token.KeywordRecord loc
  | "interface" => Token.KeywordInterface loc
  | "static" => Token.KeywordStatic loc
  | "deriving" => Token.KeywordDeriving loc
  | "bool" => Token.KeywordBool loc
  | "i8" => Token.KeywordI8 loc
  | "i16" => Token.KeywordI16 loc
  | "i32" => Token.KeywordI32 loc
  | "i64" => Token.KeywordI64 loc
  | "f32" => Token.KeywordF32 loc
  | "f64" => Token.KeywordF64 loc
  | "string" => Token.KeywordString loc
  | "binary" => Token.KeywordBinary loc
  | "date" => Token.KeywordDate loc
  | "list" => Token.KeywordList loc
  | "set" => Token.KeywordSet loc
  | "map" => Token.KeywordMap loc
  | "optional" => Token.KeywordOptional loc
  | _ => Token.Identifier word loc

/-- Result of one iteration of the scanning loop: the loop is finished
(input exhausted), fails with an error, or continues with the remaining
characters, updated location and updated (reversed) token accumulator. -/
inductive StepResult where
  | done : StepResult
  | error : TokenizeError → StepResult
  | next : List Char → Loc → List Token → StepResult
deriving DecidableEq, Repr

/-- Comment handling of the `#` arm (src/token.rs lines 130-135): if the
most recently pushed token is a comment, the new comment text is appended
to it after a newline; otherwise a fresh comment token is pushed at the
current location.  The accumulator is in reverse order, so the most
recently pushed token is the head. -/
def pushComment (comment : String) (loc : Loc) : List Token → List Token
  | Token.Comment last l :: ts => Token.Comment (last ++ "\n" ++ comment) l :: ts
  | tokens => Token.Comment comment loc :: tokens

/-- One iteration of the `while let Some(c) = iter.next()` loop of
`tokenize` (src/token.rs lines 109-230), one arm per arm of the Rust
`match c`; the whitespace arm is split over its four characters, with
the same effect as the Rust `if c == '\n' / if c == '\t'` chain.  The
token accumulator is in reverse order: Rust's `tokens.last_mut()` is
the head here. -/
def step : List Char → Loc → List Token → StepResult
  | [], _, _ => StepResult.done
  | ' ' :: rest, loc, tokens => StepResult.next rest ⟨loc.line, loc.column + 1⟩ tokens
  | '\t' :: rest, loc, tokens => StepResult.next rest ⟨loc.line, loc.column + TAB_SIZE⟩ tokens
  | '\r' :: rest, loc, tokens => StepResult.next rest ⟨loc.line, loc.column + 1⟩ tokens
  | '\n' :: rest, loc, tokens => StepResult.next rest ⟨loc.line + 1, 0⟩ tokens
  | '#' :: rest, loc, tokens =>
      StepResult.next (rest.dropWhile (fun ch => ch != '\n')) ⟨loc.line + 1, 0⟩
        (pushComment (String.mk (rest.takeWhile (fun ch => ch != '\n'))) loc tokens)
  | '@' :: rest, loc, tokens =>
      if String.mk (rest.takeWhile isDirectiveChar) = "extern" then
        StepResult.next (rest.dropWhile isDirectiveChar)
          ⟨loc.line, loc.column + (rest.takeWhile isDirectiveChar).length + 1⟩
          (Token.DirectiveExtern loc :: tokens)
      else if String.mk (rest.takeWhile isDirectiveChar) = "import" then
        StepResult.next (rest.dropWhile isDirectiveChar)
          ⟨loc.line, loc.column + (rest.takeWhile isDirectiveChar).length + 1⟩
          (Token.DirectiveImport loc :: tokens)
      else
        StepResult.error (TokenizeError.UnknownDirective loc)
  | '=' :: rest, loc, tokens => StepResult.next rest ⟨loc.line, loc.column + 1⟩ (Token.Equal loc :: tokens)
  | ':' :: rest, loc, tokens => StepResult.next rest ⟨loc.line, loc.column + 1⟩ (Token.Colon loc :: tokens)
  | ';' :: rest, loc, tokens => StepResult.next rest ⟨loc.line, loc.column + 1⟩ (Token.Semicolon loc :: tokens)
  | '(' :: rest, loc, tokens => StepResult.next rest ⟨loc.line, loc.column + 1⟩ (Token.OpenParen loc :: tokens)
  | ')' :: rest, loc, tokens => StepResult.next rest ⟨loc.line, loc.column + 1⟩ (Token.CloseParen loc :: tokens)
  | '\x7b' :: rest, loc, tokens => StepResult.next rest ⟨loc.line, loc.column + 1⟩ (Token.OpenBrace loc :: tokens)
  | '\x7d' :: rest, loc, tokens => StepResult.next rest ⟨loc.line, loc.column + 1⟩ (Token.CloseBrace loc :: tokens)
  | '<' :: rest, loc, tokens => StepResult.next rest ⟨loc.line, loc.column + 1⟩ (Token.OpenAngleBracket loc :: tokens)
  | '>' :: rest, loc, tokens => StepResult.next rest ⟨loc.line, loc.column + 1⟩ (Token.CloseAngleBracket loc :: tokens)
  | '+' :: 'c' :: rest, loc, tokens => StepResult.next rest ⟨loc.line, loc.column + 2⟩ (Token.LangCpp loc :: tokens)
  | '+' :: 'j' :: rest, loc, tokens => StepResult.next rest ⟨loc.line, loc.column + 2⟩ (Token.LangJava loc :: tokens)
  | '+' :: 'o' :: rest, loc, tokens => StepResult.next rest ⟨loc.line, loc.column + 2⟩ (Token.LangObjC loc :: tokens)
  | '+' :: _, loc, _ => StepResult.error (TokenizeError.UnknownLanguage loc)
  | c :: rest, loc, tokens =>
      if isWordStart c then
        StepResult.next (rest.dropWhile isWordChar)
          ⟨loc.line, loc.column + (String.mk (c :: rest.takeWhile isWordChar)).length⟩
          (keywordToken (String.mk (c :: rest.takeWhile isWordChar)) loc :: tokens)
      else
        StepResult.error (TokenizeError.InvalidChar loc)

theorem length_dropWhile_le (p : Char → Bool) (l : List Char) :
    (l.dropWhile p).length ≤ l.length := by
  induction l with
  | nil => simp [List.dropWhile]
  | cons c cs ih =>
    simp only [List.dropWhile]
    split
    · exact Nat.le_succ_of_le ih
    · simp

theorem step_next_length {cs : List Char} {loc : Loc} {tokens : List Token}
    {rest : List Char} {loc2 : Loc} {tokens2 : List Token}
    (h : step cs loc tokens = StepResult.next rest loc2 tokens2) :
    rest.length < cs.length := by
  rw [step.eq_def] at h
  split at h <;> (try split at h) <;> (try split at h) <;> cases h <;>
    first
      | (exact Nat.lt_succ_of_le (length_dropWhile_le _ _))
      | (simp only [List.length_cons]; omega)

/-- The `while` loop of `tokenize`, driven by `step`; when the input is
exhausted the accumulated tokens are returned in source order. -/
def tokenizeLoop (cs : List Char) (loc : Loc) (tokens : List Token) :
    Except TokenizeError (List Token) :=
  match hs : step cs loc tokens with
  | StepResult.done => Except.ok tokens.reverse
  | StepResult.error e => Except.error e
  | StepResult.next rest loc2 tokens2 => tokenizeLoop rest loc2 tokens2
termination_by cs.length
decreasing_by exact step_next_length hs

/-- The lexer entry point (`tokenize` in src/token.rs): scans the whole
input from `Loc::default()` with an empty token list. -/
def tokenize (input : String) : Except TokenizeError (List Token) :=
  tokenizeLoop input.data ⟨0, 0⟩ []

/-- Structural (fuel-indexed) evaluator for the scanning loop, used to
compute `tokenizeLoop` on concrete inputs; `tokenizeLoop_eq_fuel` shows
it agrees with `tokenizeLoop` whenever the fuel covers the input length
(the fuel-exhausted branch is never reached then). -/
def tokenizeFuel : Nat → List Char → Loc → List Token → Except TokenizeError (List Token)
  | 0, _, _, tokens => Except.ok tokens.reverse
  | fuel + 1, cs, loc, tokens =>
    match step cs loc tokens with
    | StepResult.done => Except.ok tokens.reverse
    | StepResult.error e => Except.error e
    | StepResult.next rest loc2 tokens2 => tokenizeFuel fuel rest loc2 tokens2

theorem tokenizeLoop_eq_fuel :
    ∀ (fuel : Nat) (cs : List Char) (loc : Loc) (tokens : List Token),
    cs.length ≤ fuel → tokenizeLoop cs loc tokens = tokenizeFuel fuel cs loc tokens := by
  intro fuel
  induction fuel with
  | zero =>
    intro cs loc tokens h
    have hnil : cs = [] := List.length_eq_zero.mp (Nat.le_zero.mp h)
    subst hnil
    rw [tokenizeLoop]
    rfl
  | succ n ih =>
    intro cs loc tokens h
    rw [tokenizeLoop]
    simp only [tokenizeFuel]
    cases hs : step cs loc tokens with
    | done => rfl
    | error e => rfl
    | next rest loc2 tokens2 =>
      exact ih rest loc2 tokens2 (Nat.le_of_lt_succ (Nat.lt_of_lt_of_le (step_next_length hs) h))

theorem tokenize_eval (input : String) :
    tokenize input = tokenizeFuel input.data.length input.data ⟨0, 0⟩ [] :=
  tokenizeLoop_eq_fuel _ _ _ _ (Nat.le_refl _)

/-- Lexicographic order on source locations: earlier line, or same line
and no later column. -/
def locLe (a b : Loc) : Prop :=
  a.line < b.line ∨ (a.line = b.line ∧ a.column ≤ b.column)

instance (a b : Loc) : Decidable (locLe a b) := by
  unfold locLe
  infer_instance

theorem locLe_refl (a : Loc) : locLe a a := Or.inr ⟨rfl, Nat.le_refl _⟩

theorem locLe_trans {a b c : Loc} (h1 : locLe a b) (h2 : locLe b c) : locLe a c := by
  unfold locLe at h1 h2 ⊢
  omega

theorem locLe_mk_add (loc : Loc) (k : Nat) : locLe loc ⟨loc.line, loc.column + k⟩ :=
  Or.inr ⟨rfl, Nat.le_add_right _ _⟩

theorem locLe_mk_add2 (loc : Loc) (m k : Nat) : locLe loc ⟨loc.line, loc.column + m + k⟩ :=
  Or.inr ⟨rfl, by show loc.column ≤ loc.column + m + k; omega⟩

theorem locLe_mk_line (loc : Loc) : locLe loc ⟨loc.line + 1, 0⟩ :=
  Or.inl (Nat.lt_succ_self _)

theorem keywordToken_loc (w : String) (l : Loc) : (keywordToken w l).loc = l := by
  unfold keywordToken
  split <;> rfl

theorem keywordToken_isComment (w : String) (l : Loc) : (keywordToken w l).isComment = false := by
  unfold keywordToken
  split <;> rfl

/-- Inversion of a continuing loop iteration: the location never moves
backwards, and the accumulator is unchanged, gains one token placed at
the current location (a fresh comment is only pushed when the previous
token is not a comment), or has its head comment replaced by a comment
at the same location. -/
theorem step_next_master {cs : List Char} {loc : Loc} {tokens : List Token}
    {rest2 : List Char} {loc2 : Loc} {tokens2 : List Token}
    (h : step cs loc tokens = StepResult.next rest2 loc2 tokens2) :
    locLe loc loc2 ∧
      (tokens2 = tokens
       ∨ (∃ t, tokens2 = t :: tokens ∧ t.loc = loc ∧
            (t.isComment = true → ∀ u us, tokens = u :: us → u.isComment = false))
       ∨ (∃ s s2 l ts, tokens = Token.Comment s l :: ts ∧ tokens2 = Token.Comment s2 l :: ts)) := by
  rw [step.eq_def] at h
  split at h <;> (try split at h) <;> (try split at h) <;> cases h <;>
    first
      | exact ⟨locLe_mk_add _ _, Or.inl rfl⟩
      | exact ⟨locLe_mk_line _, Or.inl rfl⟩
      | exact ⟨locLe_mk_add _ _,
          Or.inr (Or.inl ⟨_, rfl, rfl, by intro hc; simp [Token.isComment] at hc⟩)⟩
      | exact ⟨locLe_mk_add2 _ _ _,
          Or.inr (Or.inl ⟨_, rfl, rfl, by intro hc; simp [Token.isComment] at hc⟩)⟩
      | exact ⟨locLe_mk_add _ _,
          Or.inr (Or.inl ⟨_, rfl, keywordToken_loc _ _,
            by intro hc; rw [keywordToken_isComment] at hc; cases hc⟩)⟩
      | (refine ⟨locLe_mk_line _, ?_⟩
         cases tokens with
         | nil => exact Or.inr (Or.inl ⟨_, rfl, rfl, fun _ u us hu => by cases hu⟩)
         | cons t ts =>
           cases t <;>
             first
               | exact Or.inr (Or.inr ⟨_, _, _, _, rfl, rfl⟩)
               | exact Or.inr (Or.inl ⟨_, rfl, rfl, fun _ u us hu => by cases hu; rfl⟩))

/-- Any invariant of the location and accumulator that is preserved by
every continuing iteration of `step` holds of the final state when the
scan succeeds, and the returned token list is the final accumulator
reversed. -/
theorem tokenizeLoop_inv (P : Loc → List Token → Prop)
    (hstep : ∀ cs loc tokens rest loc2 tokens2,
        P loc tokens → step cs loc tokens = StepResult.next rest loc2 tokens2 → P loc2 tokens2) :
    ∀ (n : Nat) (cs : List Char), cs.length ≤ n →
      ∀ (loc : Loc) (tokens : List Token) (ts : List Token),
      P loc tokens → tokenizeLoop cs loc tokens = Except.ok ts →
      ∃ loc2 tokens2, P loc2 tokens2 ∧ ts = tokens2.reverse := by
  intro n
  induction n with
  | zero =>
    intro cs hlen loc tokens ts hP hrun
    have hnil : cs = [] := List.length_eq_zero.mp (Nat.le_zero.mp hlen)
    subst hnil
    rw [tokenizeLoop] at hrun
    split at hrun
    · cases hrun
      exact ⟨loc, tokens, hP, rfl⟩
    · cases hrun
    · rename_i rest loc2 tokens2 hs
      exact absurd (step_next_length hs) (Nat.not_lt_zero _)
  | succ n ih =>
    intro cs hlen loc tokens ts hP hrun
    rw [tokenizeLoop] at hrun
    split at hrun
    · cases hrun
      exact ⟨loc, tokens, hP, rfl⟩
    · cases hrun
    · rename_i rest loc2 tokens2 hs
      exact ih rest
        (Nat.le_of_lt_succ (Nat.lt_of_lt_of_le (step_next_length hs) hlen))
        loc2 tokens2 ts (hstep _ _ _ _ _ _ hP hs) hrun

/-- Invariant of the scanning loop used for monotonicity: every
accumulated token sits at or before the cursor location, and the
(reversed) accumulator is non-increasing in location. -/
def sortedInv (loc : Loc) (tokens : List Token) : Prop :=
  (∀ t ∈ tokens, locLe t.loc loc) ∧ List.Chain' (fun a b => locLe b.loc a.loc) tokens

theorem sortedInv_step : ∀ cs loc tokens rest loc2 tokens2,
    sortedInv loc tokens → step cs loc tokens = StepResult.next rest loc2 tokens2 →
    sortedInv loc2 tokens2 := by
  intro cs loc tokens rest loc2 tokens2 hP hs
  obtain ⟨hall, hchain⟩ := hP
  obtain ⟨hle, hcase⟩ := step_next_master hs
  rcases hcase with rfl | ⟨t, rfl, hloc, _⟩ | ⟨s, s2, l, ts, rfl, rfl⟩
  · exact ⟨fun t ht => locLe_trans (hall t ht) hle, hchain⟩
  · refine ⟨?_, List.Chain'.cons' hchain ?_⟩
    · intro u hu
      rcases List.mem_cons.mp hu with rfl | hu
      · rw [hloc]
        exact hle
      · exact locLe_trans (hall u hu) hle
    · intro y hy
      rw [hloc]
      exact hall y (List.mem_of_mem_head? hy)
  · refine ⟨?_, ?_⟩
    · intro u hu
      rcases List.mem_cons.mp hu with rfl | hu
      · exact locLe_trans (hall (Token.Comment s l) (List.mem_cons_self _ _)) hle
      · exact locLe_trans (hall u (List.mem_cons_of_mem _ hu)) hle
    · obtain ⟨hh, ht⟩ := List.chain'_cons'.mp hchain
      exact List.chain'_cons'.mpr ⟨hh, ht⟩

/-- No two adjacent tokens of the list are both comments. -/
def noAdjComments (tokens : List Token) : Prop :=
  List.Chain' (fun a b => ¬(a.isComment = true ∧ b.isComment = true)) tokens

theorem noAdjComments_step : ∀ cs loc tokens rest loc2 tokens2,
    noAdjComments tokens → step cs loc tokens = StepResult.next rest loc2 tokens2 →
    noAdjComments tokens2 := by
  intro cs loc tokens rest loc2 tokens2 hP hs
  obtain ⟨_, hcase⟩ := step_next_master hs
  rcases hcase with rfl | ⟨t, rfl, _, hguard⟩ | ⟨s, s2, l, ts, rfl, rfl⟩
  · exact hP
  · refine List.Chain'.cons' hP ?_
    intro y hy hcc
    cases htk : tokens with
    | nil =>
      rw [htk] at hy
      cases hy
    | cons u us =>
      rw [htk] at hy
      have hyu : y = u := by
        cases hy
        rfl
      have hu := hguard hcc.1 u us htk
      rw [hyu, hu] at hcc
      exact Bool.false_ne_true hcc.2
  · obtain ⟨hh, ht⟩ := List.chain'_cons'.mp hP
    exact List.chain'_cons'.mpr ⟨hh, ht⟩

/-- Every successful scan returns the reverse of an accumulator for
which any `step`-preserved invariant holds. -/
theorem tokenize_ok_inv (P : Loc → List Token → Prop)
    (hstep : ∀ cs loc tokens rest loc2 tokens2,
        P loc tokens → step cs loc tokens = StepResult.next rest loc2 tokens2 → P loc2 tokens2)
    (input : String) (ts : List Token)
    (hP0 : P ⟨0, 0⟩ [])
    (h : tokenize input = Except.ok ts) :
    ∃ loc2 tokens2, P loc2 tokens2 ∧ ts = tokens2.reverse :=
  tokenizeLoop_inv P hstep input.data.length input.data (Nat.le_refl _) ⟨0, 0⟩ [] ts hP0 h

/-- Number of lines of a text: one more than the number of newline
characters; the valid zero-based line indices of the text are exactly
the naturals below `lineCount`. -/
def lineCount (input : String) : Nat :=
  (input.data.filter (fun ch => ch = '\n')).length + 1

/-- C1 (counterexample): on the spec's scenario input the lexer does not
produce `DirectiveExtern, FilePath, DirectiveImport, FilePath`; it fails
at the first double quote (line 0, column 8) with the invalid-character
error.  There is no `FilePath` token and no quoted-path scanner in the
source. -/
theorem claim_C1_counterexample :
    tokenize "@extern \"a/b.yaml\"\n@import \"a/b.idl\"" =
      Except.error (TokenizeError.InvalidChar ⟨0, 8⟩) := by
  rw [tokenize_eval]
  rfl

/-- C1 (amended): a double quote never opens a path literal; whenever the
scanning loop meets `\x22` it fails with `InvalidChar` at the current
position, and in particular the scenario input fails with `InvalidChar`
at line 0, column 8 (the opening quote of `"a/b.yaml"`). -/
theorem claim_C1 :
    (∀ rest loc tokens, step ('"' :: rest) loc tokens =
        StepResult.error (TokenizeError.InvalidChar loc)) ∧
    tokenize "@extern \"a/b.yaml\"\n@import \"a/b.idl\"" =
      Except.error (TokenizeError.InvalidChar ⟨0, 8⟩) :=
  ⟨fun _ _ _ => rfl, by rw [tokenize_eval]; rfl⟩

/-- C2 (counterexample): a quoted path with a newline before the closing
quote does not fail with an `InvalidFilePath` error (no such variant
exists); it fails with `InvalidChar` at the opening quote. -/
theorem claim_C2_counterexample :
    tokenize "@import \"a\nb\"" = Except.error (TokenizeError.InvalidChar ⟨0, 8⟩) := by
  rw [tokenize_eval]
  rfl

/-- C2 (amended): `TokenizeError` has exactly three kinds — `InvalidChar`
(the spec's `UnexpectedChar`), `UnknownDirective`, `UnknownLanguage` —
each carrying a `Loc`; there is no `InvalidFilePath` kind, and an input
with a double quote fails with `InvalidChar` at the quote's position. -/
theorem claim_C2 :
    (∀ e : TokenizeError,
        (∃ l, e = TokenizeError.InvalidChar l) ∨
        (∃ l, e = TokenizeError.UnknownDirective l) ∨
        (∃ l, e = TokenizeError.UnknownLanguage l)) ∧
    tokenize "@extern \"x\ny\"" = Except.error (TokenizeError.InvalidChar ⟨0, 8⟩) := by
  constructor
  · intro e
    cases e with
    | InvalidChar l => exact Or.inl ⟨l, rfl⟩
    | UnknownDirective l => exact Or.inr (Or.inl ⟨l, rfl⟩)
    | UnknownLanguage l => exact Or.inr (Or.inr ⟨l, rfl⟩)
  · rw [tokenize_eval]
    rfl

/-- C3 (code evaluated at the failing input): the input `"# A\nfoo"` has
two lines (indices 0 and 1), yet `tokenize` succeeds and places the
`Identifier "foo"` token at line 2 — outside the original input — because
the comment arm increments the line counter without consuming the
newline, which is then counted a second time. -/
theorem claim_C3 :
    tokenize "# A\nfoo" =
      Except.ok [Token.Comment " A" ⟨0, 0⟩, Token.Identifier "foo" ⟨2, 0⟩] ∧
    lineCount "# A\nfoo" = 2 ∧
    ∃ t ∈ [Token.Comment " A" ⟨0, 0⟩, Token.Identifier "foo" ⟨2, 0⟩],
      lineCount "# A\nfoo" ≤ t.loc.line := by
  refine ⟨by rw [tokenize_eval]; rfl, rfl, Token.Identifier "foo" ⟨2, 0⟩, by simp, by decide⟩

/-- C4: whenever `tokenize` succeeds, the locations of the returned
tokens are monotonically non-decreasing in lexicographic
(line, column) order (and `tokenize` is total by construction). -/
theorem claim_C4 (input : String) (ts : List Token)
    (h : tokenize input = Except.ok ts) :
    List.Chain' (fun a b => locLe a.loc b.loc) ts := by
  obtain ⟨loc2, tokens2, hP, rfl⟩ :=
    tokenize_ok_inv sortedInv sortedInv_step input ts
      ⟨fun t ht => absurd ht (List.not_mem_nil t), List.chain'_nil⟩ h
  exact List.chain'_reverse.mpr hP.2

/-- C4 (witness): the theorem applied to the input `"a b"`, whose two
tokens sit at (0,0) and (0,2). -/
theorem claim_C4_witness :
    tokenize "a b" = Except.ok [Token.Identifier "a" ⟨0, 0⟩, Token.Identifier "b" ⟨0, 2⟩] ∧
    List.Chain' (fun a b => locLe a.loc b.loc)
      [Token.Identifier "a" ⟨0, 0⟩, Token.Identifier "b" ⟨0, 2⟩] :=
  ⟨by rw [tokenize_eval]; rfl,
   claim_C4 "a b" [Token.Identifier "a" ⟨0, 0⟩, Token.Identifier "b" ⟨0, 2⟩]
     (by rw [tokenize_eval]; rfl)⟩

/-- C5: two consecutive comment lines `"# A\n# B"` merge into the single
token `Comment " A\n B"` at (0,0), and in every successful output no two
adjacent tokens are both comments. -/
theorem claim_C5 :
    tokenize "# A\n# B" = Except.ok [Token.Comment " A\n B" ⟨0, 0⟩] ∧
    ∀ (input : String) (ts : List Token),
      tokenize input = Except.ok ts → noAdjComments ts := by
  constructor
  · rw [tokenize_eval]
    rfl
  · intro input ts h
    obtain ⟨loc2, tokens2, hP, rfl⟩ :=
      tokenize_ok_inv (fun _ tokens => noAdjComments tokens) noAdjComments_step input ts
        List.chain'_nil h
    exact List.chain'_reverse.mpr (List.Chain'.imp (fun a b hab hc => hab ⟨hc.2, hc.1⟩) hP)

/-- C5 (witness): the adjacency property applied to the merged-comment
scenario output. -/
theorem claim_C5_witness : noAdjComments [Token.Comment " A\n B" ⟨0, 0⟩] :=
  claim_C5.2 "# A\n# B" [Token.Comment " A\n B" ⟨0, 0⟩] (by rw [tokenize_eval]; rfl)

/-- C6: the word `optional` is a keyword token, while `optional_value`
is scanned as one maximal word and, missing the keyword table, becomes a
single identifier token. -/
theorem claim_C6 :
    tokenize "optional" = Except.ok [Token.KeywordOptional ⟨0, 0⟩] ∧
    tokenize "optional_value" = Except.ok [Token.Identifier "optional_value" ⟨0, 0⟩] :=
  ⟨by rw [tokenize_eval]; rfl, by rw [tokenize_eval]; rfl⟩

/-- C7: `+` with lookahead `c`, `j`, `o` yields the corresponding
language token, consuming both characters and advancing the column by 2;
with any other lookahead, or at end of input, scanning fails with
`UnknownLanguage` at the position of the `+`; the input `"xyz\n+x"`
fails with `UnknownLanguage` at line 1, column 0. -/
theorem claim_C7 :
    (∀ rest loc tokens, step ('+' :: 'c' :: rest) loc tokens =
        StepResult.next rest ⟨loc.line, loc.column + 2⟩ (Token.LangCpp loc :: tokens)) ∧
    (∀ rest loc tokens, step ('+' :: 'j' :: rest) loc tokens =
        StepResult.next rest ⟨loc.line, loc.column + 2⟩ (Token.LangJava loc :: tokens)) ∧
    (∀ rest loc tokens, step ('+' :: 'o' :: rest) loc tokens =
        StepResult.next rest ⟨loc.line, loc.column + 2⟩ (Token.LangObjC loc :: tokens)) ∧
    (∀ (c2 : Char) rest loc tokens, c2 ≠ 'c' → c2 ≠ 'j' → c2 ≠ 'o' →
        step ('+' :: c2 :: rest) loc tokens =
          StepResult.error (TokenizeError.UnknownLanguage loc)) ∧
    (∀ loc tokens, step ['+'] loc tokens =
        StepResult.error (TokenizeError.UnknownLanguage loc)) ∧
    tokenize "xyz\n+x" = Except.error (TokenizeError.UnknownLanguage ⟨1, 0⟩) := by
  refine ⟨fun _ _ _ => rfl, fun _ _ _ => rfl, fun _ _ _ => rfl, ?_, fun _ _ => rfl,
    by rw [tokenize_eval]; rfl⟩
  intro c2 rest loc tokens h1 h2 h3
  rw [step.eq_def]
  split <;> simp_all [@eq_comm Char]

/-- C7 (witness): the `UnknownLanguage` case of the theorem applied to
the lookahead `x`. -/
theorem claim_C7_witness :
    step ['+', 'x'] ⟨0, 0⟩ [] = StepResult.error (TokenizeError.UnknownLanguage ⟨0, 0⟩) :=
  claim_C7.2.2.2.1 'x' [] ⟨0, 0⟩ [] (by decide) (by decide) (by decide)

/-- C8: a character that can start no token — not whitespace, not `#`,
`@`, a punctuation character, `+`, and not a word start — makes the
scanning loop fail with the invalid-character error (the spec's
`UnexpectedChar` names the source's `InvalidChar` variant) at the
current position; the input `"abc -"` fails there at line 0, column 4. -/
theorem claim_C8 :
    (∀ (c : Char) rest loc tokens,
        c ≠ ' ' → c ≠ '\t' → c ≠ '\r' → c ≠ '\n' → c ≠ '#' → c ≠ '@' → c ≠ '=' → c ≠ ':' →
        c ≠ ';' → c ≠ '(' → c ≠ ')' → c ≠ '\x7b' → c ≠ '\x7d' → c ≠ '<' → c ≠ '>' → c ≠ '+' →
        isWordStart c = false →
        step (c :: rest) loc tokens = StepResult.error (TokenizeError.InvalidChar loc)) ∧
    tokenize "abc -" = Except.error (TokenizeError.InvalidChar ⟨0, 4⟩) := by
  constructor
  · intro c rest loc tokens h1 h2 h3 h4 h5 h6 h7 h8 h9 h10 h11 h12 h13 h14 h15 h16 hws
    rw [step.eq_def]
    split <;> simp_all [@eq_comm Char]
  · rw [tokenize_eval]
    rfl

/-- C8 (witness): the theorem applied to the digit `1`, which can start
no token. -/
theorem claim_C8_witness :
    step ['1'] ⟨0, 0⟩ [] = StepResult.error (TokenizeError.InvalidChar ⟨0, 0⟩) :=
  claim_C8.1 '1' [] ⟨0, 0⟩ []
    (by decide) (by decide) (by decide) (by decide) (by decide) (by decide) (by decide)
    (by decide) (by decide) (by decide) (by decide) (by decide) (by decide) (by decide)
    (by decide) (by decide) (by decide)

/-- C9: whitespace never produces a token — each whitespace iteration
passes the accumulator on unchanged — and a space advances the column by
1, a tab by exactly `TAB_SIZE = 4`, a carriage return by 1, while a
newline resets the column to 0 and increments the line. -/
theorem claim_C9 :
    (∀ rest loc tokens, step (' ' :: rest) loc tokens =
        StepResult.next rest ⟨loc.line, loc.column + 1⟩ tokens) ∧
    (∀ rest loc tokens, step ('\t' :: rest) loc tokens =
        StepResult.next rest ⟨loc.line, loc.column + 4⟩ tokens) ∧
    (∀ rest loc tokens, step ('\r' :: rest) loc tokens =
        StepResult.next rest ⟨loc.line, loc.column + 1⟩ tokens) ∧
    (∀ rest loc tokens, step ('\n' :: rest) loc tokens =
        StepResult.next rest ⟨loc.line + 1, 0⟩ tokens) ∧
    TAB_SIZE = 4 :=
  ⟨fun _ _ _ => rfl, fun _ _ _ => rfl, fun _ _ _ => rfl, fun _ _ _ => rfl, rfl⟩

/-- C10: the comment arm stops at the newline without consuming it while
already incrementing the line counter (shown on a concrete iteration),
so after a comment line followed by a newline the counter has advanced
by two: `"# A\nfoo"` yields `Comment " A"` at (0,0) and
`Identifier "foo"` at (2,0), one line past its source line. -/
theorem claim_C10 :
    tokenize "# A\nfoo" =
      Except.ok [Token.Comment " A" ⟨0, 0⟩, Token.Identifier "foo" ⟨2, 0⟩] ∧
    step ['#', 'A', '\n', 'f'] ⟨0, 0⟩ [] =
      StepResult.next ['\n', 'f'] ⟨1, 0⟩ [Token.Comment "A" ⟨0, 0⟩] :=
  ⟨by rw [tokenize_eval]; rfl, rfl⟩

end Djinnius
